import Mathlib

/-!
Formal model of the slug-allocation, image-ingestion and lookup core of
the imagehub application (src/imagehub).  The definitions below are
shallow embeddings of the Python source over an explicit store state:
django.utils.text.slugify, generate_unique_slug, Folder.save,
Folder.update_image_count, Image.save, image deletion and
get_object_by_identifier.
-/

namespace ImageHub

/-- ASCII word characters: what the regex class w matches inside
django.utils.text.slugify once the input has been reduced to ASCII and
lowercased. -/
def isWordChar (c : Char) : Bool := c.isAlphanum || c == '_'

/-- Python ASCII whitespace, the regex class s in the slugify regexes:
space, tab, newline, carriage return, vertical tab and form feed. -/
def isPySpace (c : Char) : Bool :=
  c == ' ' || c == '\t' || c == '\n' || c == '\r' || c == Char.ofNat 11 || c == Char.ofNat 12

/-- Characters collapsed to a single hyphen by the second slugify regex. -/
def isDashOrSpace (c : Char) : Bool := c == '-' || isPySpace c

/-- Replace every maximal run of hyphen or whitespace characters by one
hyphen, as re.sub of the class of hyphens and whitespace does.  The
boolean argument records whether the previous character belonged to such
a run. -/
def collapseAux : Bool → List Char → List Char
  | _, [] => []
  | inRun, c :: rest =>
    if isDashOrSpace c then
      if inRun then collapseAux true rest else '-' :: collapseAux true rest
    else
      c :: collapseAux false rest

/-- Characters removed from both ends by the final strip call of slugify:
hyphen and underscore. -/
def isStripChar (c : Char) : Bool := c == '-' || c == '_'

/-- Remove leading and trailing hyphen or underscore characters. -/
def stripEnds (l : List Char) : List Char :=
  ((l.dropWhile isStripChar).reverse.dropWhile isStripChar).reverse

/-- django.utils.text.slugify with allow_unicode false: reduce to ASCII
(non-ASCII code points are dropped, as the encode-to-ascii-with-ignore
step does once normalization is done), lowercase, delete every character
that is not a word character, whitespace or a hyphen, collapse runs of
hyphens and whitespace into single hyphens, and strip leading and
trailing hyphens and underscores. -/
def slugify (name : String) : String :=
  let ascii := name.data.filter (fun c => c.toNat < 128)
  let lowered := ascii.map Char.toLower
  let kept := lowered.filter (fun c => isWordChar c || isPySpace c || c == '-')
  String.mk (stripEnds (collapseAux false kept))

/-- Decimal digit character for a digit value below ten. -/
def digitChar (d : Nat) : Char := Char.ofNat (48 + d)

/-- Big-endian decimal digit characters of a natural number, empty for
zero.  The first argument is recursion fuel; it suffices whenever the
number is at most the fuel. -/
def natStrAux : Nat → Nat → List Char
  | 0, _ => []
  | fuel + 1, n => if n = 0 then [] else natStrAux fuel (n / 10) ++ [digitChar (n % 10)]

/-- Decimal rendering of a natural number, the model of the Python
built-in str applied to the non-negative suffix counter. -/
def natStr (n : Nat) : String := if n = 0 then "0" else String.mk (natStrAux n n)

/-- Numeric value of a big-endian list of decimal digit characters. -/
def parseDigits (l : List Char) : Nat := l.foldl (fun a c => a * 10 + (c.toNat - 48)) 0

/-- Candidate slug with a numeric suffix: the f-string joining the base
slug, a hyphen and the counter. -/
def candSlug (orig : String) (n : Nat) : String := orig ++ "-" ++ natStr n

/-- Body of the uniqueness loop of generate_unique_slug: while the
current slug is held by some entity in scope, move to the next suffixed
candidate and bump the counter.  The fuel bounds the number of
iterations; one more than the number of slugs in scope always suffices,
as proved below. -/
def slugAttempts (existing : List String) (orig : String) : String → Nat → Nat → String
  | slug, _, 0 => slug
  | slug, count, fuel + 1 =>
    if slug ∈ existing then slugAttempts existing orig (candSlug orig count) (count + 1) fuel
    else slug

/-- generate_unique_slug from src/imagehub/models.py.  The argument
existing lists the slugs held by the entities that the Python function
probes through model_class.objects.filter: the slugs of all folders when
called for the Folder model with no folder id, and the slugs of the
images of the given folder when called for the Image model with a folder
id. -/
def generate_unique_slug (existing : List String) (name : String) : String :=
  let base := slugify name
  slugAttempts existing base base 1 (existing.length + 1)

/-- Stored row of the Folder model. -/
structure FolderRec where
  id : Nat
  name : String
  slug : String
  image_count : Nat
deriving DecidableEq

/-- Stored row of the Image model.  The field file_name is the name of
the stored file, the upload path produced by upload_to_path. -/
structure ImageRec where
  id : Nat
  folder_id : Nat
  name : String
  slug : String
  file_name : String
  width : Nat
  height : Nat
  file_size : Nat
  is_color : Bool
deriving DecidableEq

/-- The relational store: the folder and image tables plus the two id
sequences. -/
structure DB where
  folders : List FolderRec
  images : List ImageRec
  next_folder_id : Nat
  next_image_id : Nat
deriving DecidableEq

/-- Slugs in the scope probed when generate_unique_slug is called for the
Folder model: the slugs of all folders. -/
def folderScopeSlugs (db : DB) : List String := db.folders.map (fun f => f.slug)

/-- Slugs in the scope probed when generate_unique_slug is called for the
Image model with a folder id: the slugs of that folder's images. -/
def imageScopeSlugs (db : DB) (folder_id : Nat) : List String :=
  (db.images.filter (fun i => i.folder_id == folder_id)).map (fun i => i.slug)

/-- Folder.save for a new folder created with only a name (the path the
serializer and the tests use): the slug field is empty, so
generate_unique_slug fills it, and the inserted row gets the next id and
the default image count of zero. -/
def createFolder (db : DB) (name : String) : DB × FolderRec :=
  let slug := generate_unique_slug (folderScopeSlugs db) name
  let f : FolderRec := { id := db.next_folder_id, name := name, slug := slug, image_count := 0 }
  ({ db with folders := db.folders ++ [f], next_folder_id := db.next_folder_id + 1 }, f)

/-- Number of Image rows referencing a folder, as self.image_set.count()
computes it. -/
def countImages (db : DB) (folder_id : Nat) : Nat :=
  (db.images.filter (fun i => i.folder_id == folder_id)).length

/-- Folder.update_image_count: recompute the image count from the actual
related images and store it on the folder row. -/
def update_image_count (db : DB) (folder_id : Nat) : DB :=
  { db with folders := db.folders.map (fun f =>
      if f.id = folder_id then { f with image_count := countImages db folder_id } else f) }

/-- Result of decoding an uploaded file with PIL: pixel width and height
and the color mode string (for example RGB, or L for single-channel
grayscale). -/
structure DecodedImage where
  width : Nat
  height : Nat
  mode : String
deriving DecidableEq

/-- An uploaded file: its filename, the byte length of its content, and
the abstract result of PILImage.open on the content (none when the bytes
are not a decodable image, the case in which the Python call raises). -/
structure UploadedFile where
  filename : String
  size : Nat
  decoded : Option DecodedImage
deriving DecidableEq

/-- os.path.basename: the part of a path after the last slash. -/
def basename (p : String) : String :=
  String.mk ((p.data.reverse.takeWhile (fun c => ¬ c == '/')).reverse)

/-- Root part of os.path.splitext applied to a basename: everything
before the last dot, except that a dot is no split point when every
character before it is itself a dot, so dotfiles keep their full name. -/
def splitextRoot (b : String) : String :=
  if '.' ∈ b.data then
    let root := ((b.data.reverse.dropWhile (fun c => ¬ c == '.')).tail).reverse
    let lead := (b.data.takeWhile (fun c => c == '.')).length
    if lead < root.length then String.mk root else b
  else b

/-- Extension of a filename as Django's FileExtensionValidator sees it:
the lowercased suffix after the last dot, empty when there is none. -/
def file_extension (filename : String) : String :=
  let b := basename filename
  if '.' ∈ b.data then
    let root := ((b.data.reverse.dropWhile (fun c => ¬ c == '.')).tail).reverse
    let lead := (b.data.takeWhile (fun c => c == '.')).length
    if lead < root.length then
      String.mk (((b.data.reverse.takeWhile (fun c => ¬ c == '.')).reverse).map Char.toLower)
    else ""
  else ""

/-- Allow-list of the FileExtensionValidator declared on the field
Image.image_file in src/imagehub/models.py. -/
def allowed_extensions : List String := ["png", "jpg", "jpeg", "gif"]

/-- Check performed by the FileExtensionValidator declared on
Image.image_file.  Django runs field validators only during full_clean,
which Model.save never calls, so Image.save does not consult this
predicate. -/
def extension_allowed (filename : String) : Bool :=
  allowed_extensions.contains (file_extension filename)

/-- upload_to_path from src/imagehub/models.py: uploads, the folder id
and the original filename joined with slashes. -/
def upload_to_path (folder_id : Nat) (filename : String) : String :=
  "uploads/" ++ natStr folder_id ++ "/" ++ filename

/-- Image.save on a record without a primary key, the path taken when
the ingestion pipeline creates an image: derive the name from the
uploaded filename with the extension stripped, allocate a slug unique
within the folder, decode the content and extract width, height, color
mode and byte size (the ValueError on a failed decode is modelled as the
error case), insert the row, and recount the parent folder. -/
def image_save_new (db : DB) (folder_id : Nat) (file : UploadedFile) :
    Except String (DB × ImageRec) :=
  let name := splitextRoot (basename file.filename)
  let slug := if name = "" then "" else generate_unique_slug (imageScopeSlugs db folder_id) name
  match file.decoded with
  | none => Except.error "Invalid image file"
  | some info =>
    let img : ImageRec :=
      { id := db.next_image_id, folder_id := folder_id, name := name, slug := slug,
        file_name := upload_to_path folder_id file.filename,
        width := info.width, height := info.height,
        file_size := file.size, is_color := info.mode != "L" }
    let db1 : DB := { db with images := db.images ++ [img], next_image_id := db.next_image_id + 1 }
    Except.ok (update_image_count db1 folder_id, img)

/-- Outcome of one ingestion request against the store: the ValueError
raised inside Image.save propagates before super().save() has run, so on
failure no row is written and the store is unchanged. -/
def ingest_result (db : DB) (folder_id : Nat) (file : UploadedFile) : DB × Option ImageRec :=
  match image_save_new db folder_id file with
  | Except.error _ => (db, none)
  | Except.ok (db2, img) => (db2, some img)

/-- Image.save on a record that already has a primary key: the name is
recomputed from the stored file name and the slug is regenerated against
the folder scope (which contains this row's own slug); the metadata
block is skipped because self.pk is set; the row is updated in place and
the folder recounted. -/
def image_resave (db : DB) (img_id : Nat) : DB :=
  match db.images.find? (fun i => i.id == img_id) with
  | none => db
  | some img =>
    let name := splitextRoot (basename img.file_name)
    let slug := if name = "" then img.slug
                else generate_unique_slug (imageScopeSlugs db img.folder_id) name
    let img2 : ImageRec := { img with name := name, slug := slug }
    let db1 : DB :=
      { db with images := db.images.map (fun i => if i.id == img_id then img2 else i) }
    update_image_count db1 img.folder_id

/-- Deletion of an Image row.  The repository defines no delete override
and no signal for the Image model, so Django's default delete only
removes the row; no step recounts the parent folder. -/
def image_delete (db : DB) (img_id : Nat) : DB :=
  { db with images := db.images.filter (fun i => ¬ i.id == img_id) }

/-- str.isdigit for ASCII strings: nonempty and consisting of decimal
digits only. -/
def isdigit (s : String) : Bool := !s.data.isEmpty && s.data.all Char.isDigit

/-- Value of the Python int constructor on a decimal digit string. -/
def strToNat (s : String) : Nat := parseDigits s.data

/-- get_object_by_identifier from src/imagehub/views.py specialised to
the Folder model with no parent filter: a purely numeric identifier is
looked up as an id, anything else as a slug; get_object_or_404 yields
none when no row matches. -/
def get_object_by_identifier (folders : List FolderRec) (identifier : String) :
    Option FolderRec :=
  if isdigit identifier then folders.find? (fun f => f.id == strToNat identifier)
  else folders.find? (fun f => f.slug == identifier)

theorem digitChar_toNat : ∀ d, d < 10 → (digitChar d).toNat = 48 + d := by decide

theorem foldl_natStrAux (fuel : Nat) : ∀ n acc, n ≤ fuel →
    (natStrAux fuel n).foldl (fun a c => a * 10 + (c.toNat - 48)) acc =
      acc * 10 ^ (natStrAux fuel n).length + n := by
  induction fuel with
  | zero =>
    intro n acc h
    have : n = 0 := Nat.le_zero.mp h
    subst this
    simp [natStrAux]
  | succ fuel ih =>
    intro n acc h
    by_cases hn : n = 0
    · simp [natStrAux, hn]
    · have hdiv : n / 10 ≤ fuel := by
        have := Nat.div_lt_self (Nat.pos_of_ne_zero hn) (by norm_num : 1 < 10)
        omega
      have hd : (digitChar (n % 10)).toNat = 48 + n % 10 :=
        digitChar_toNat _ (Nat.mod_lt _ (by norm_num))
      simp only [natStrAux, hn, if_false, List.foldl_append, List.foldl_cons, List.foldl_nil,
        List.length_append, List.length_cons, List.length_nil, ih _ _ hdiv, hd, pow_succ]
      have hdm : 10 * (n / 10) + n % 10 = n := Nat.div_add_mod n 10
      ring_nf
      omega

theorem parseDigits_natStr (n : Nat) : parseDigits (natStr n).data = n := by
  by_cases h : n = 0
  · subst h; decide
  · have hfold := foldl_natStrAux n n 0 le_rfl
    simp only [natStr, h, if_false, parseDigits]
    simpa using hfold

theorem natStr_data_inj {a b : Nat} (h : (natStr a).data = (natStr b).data) : a = b := by
  have ha := parseDigits_natStr a
  have hb := parseDigits_natStr b
  rw [h] at ha
  omega

theorem data_append (s t : String) : (s ++ t).data = s.data ++ t.data := by
  cases s; cases t; rfl

theorem candSlug_data (o : String) (n : Nat) :
    (candSlug o n).data = o.data ++ '-' :: (natStr n).data := by
  simp [candSlug, data_append]

theorem candSlug_inj {o : String} {a b : Nat} (h : candSlug o a = candSlug o b) : a = b := by
  have hd := congrArg String.data h
  rw [candSlug_data, candSlug_data] at hd
  have hc := List.append_cancel_left hd
  exact natStr_data_inj (List.cons.inj hc).2

theorem candSlug_ne_orig (o : String) (n : Nat) : candSlug o n ≠ o := by
  intro h
  have := congrArg (fun s => s.data.length) h
  simp [candSlug_data] at this

theorem exists_cand_free (existing : List String) (f : Nat → String)
    (hinj : ∀ i j, f i = f j → i = j) : ∃ k ≤ existing.length, f k ∉ existing := by
  by_contra hcon
  push_neg at hcon
  have hmaps : ∀ a ∈ Finset.range (existing.length + 1), f a ∈ existing.toFinset := by
    intro a ha
    rw [List.mem_toFinset]
    exact hcon a (Nat.lt_succ_iff.mp (Finset.mem_range.mp ha))
  have hcard : existing.toFinset.card < (Finset.range (existing.length + 1)).card := by
    simpa using Nat.lt_succ_of_le existing.toFinset_card_le
  obtain ⟨x, _, y, _, hxy, hfxy⟩ :=
    Finset.exists_ne_map_eq_of_card_lt_of_maps_to hcard hmaps
  exact hxy (hinj _ _ hfxy)

theorem slugAttempts_of_not_mem {existing : List String} {orig slug : String} {count fuel : Nat}
    (h : slug ∉ existing) : slugAttempts existing orig slug count fuel = slug := by
  cases fuel <;> simp [slugAttempts, h]

theorem slugAttempts_not_mem (existing : List String) (orig : String) :
    ∀ fuel slug count, (slug ∉ existing ∨ ∃ k < fuel, candSlug orig (count + k) ∉ existing) →
      slugAttempts existing orig slug count fuel ∉ existing := by
  intro fuel
  induction fuel with
  | zero =>
    intro slug count h
    rcases h with h | ⟨k, hk, _⟩
    · simpa [slugAttempts] using h
    · omega
  | succ fuel ih =>
    intro slug count h
    by_cases hs : slug ∈ existing
    · rw [show slugAttempts existing orig slug count (fuel + 1) =
          slugAttempts existing orig (candSlug orig count) (count + 1) fuel by
        simp [slugAttempts, hs]]
      apply ih
      rcases h with h | ⟨k, hk, hfree⟩
      · exact absurd hs h
      · cases k with
        | zero => exact Or.inl (by simpa using hfree)
        | succ k' =>
          refine Or.inr ⟨k', by omega, ?_⟩
          have harith : count + (k' + 1) = (count + 1) + k' := by omega
          rwa [harith] at hfree
    · rw [slugAttempts_of_not_mem hs]
      exact hs

theorem slugAttempts_first (existing : List String) (orig : String) :
    ∀ fuel slug count, slug ∈ existing → (∃ k < fuel, candSlug orig (count + k) ∉ existing) →
      ∃ j, slugAttempts existing orig slug count fuel = candSlug orig (count + j) ∧
        candSlug orig (count + j) ∉ existing ∧
        ∀ i, i < j → candSlug orig (count + i) ∈ existing := by
  intro fuel
  induction fuel with
  | zero =>
    intro slug count _ hex
    obtain ⟨k, hk, _⟩ := hex
    omega
  | succ fuel ih =>
    intro slug count hs hex
    obtain ⟨k, hk, hfree⟩ := hex
    rw [show slugAttempts existing orig slug count (fuel + 1) =
        slugAttempts existing orig (candSlug orig count) (count + 1) fuel by
      simp [slugAttempts, hs]]
    by_cases h0 : candSlug orig count ∈ existing
    · have hk1 : k ≠ 0 := by
        rintro rfl
        simp only [Nat.add_zero] at hfree
        exact hfree h0
      have harith : (count + 1) + (k - 1) = count + k := by omega
      obtain ⟨j, hj1, hj2, hj3⟩ :=
        ih (candSlug orig count) (count + 1) h0 ⟨k - 1, by omega, by rwa [harith]⟩
      refine ⟨j + 1, ?_, ?_, ?_⟩
      · rw [hj1]; congr 1; omega
      · have harith2 : count + (j + 1) = (count + 1) + j := by omega
        rwa [harith2]
      · intro i hi
        cases i with
        | zero => simpa using h0
        | succ i' =>
          have harith3 : count + (i' + 1) = (count + 1) + i' := by omega
          rw [harith3]
          exact hj3 i' (by omega)
    · refine ⟨0, ?_, by simpa using h0, by omega⟩
      rw [slugAttempts_of_not_mem h0]
      simp

theorem candFamily_inj (base : String) :
    ∀ i j, candSlug base (1 + i) = candSlug base (1 + j) → i = j := by
  intro i j h
  have := candSlug_inj h
  omega

theorem gen_slug_base {existing : List String} {name : String}
    (h : slugify name ∉ existing) : generate_unique_slug existing name = slugify name :=
  slugAttempts_of_not_mem h

theorem gen_slug_not_mem (existing : List String) (name : String) :
    generate_unique_slug existing name ∉ existing := by
  show slugAttempts existing (slugify name) (slugify name) 1 (existing.length + 1) ∉ existing
  by_cases hb : slugify name ∈ existing
  · apply slugAttempts_not_mem
    refine Or.inr ?_
    obtain ⟨k, hk, hfree⟩ :=
      exists_cand_free existing (fun k => candSlug (slugify name) (1 + k))
        (candFamily_inj (slugify name))
    exact ⟨k, by omega, hfree⟩
  · apply slugAttempts_not_mem
    exact Or.inl hb

theorem gen_slug_first {existing : List String} {name : String}
    (hb : slugify name ∈ existing) :
    ∃ n, 1 ≤ n ∧ generate_unique_slug existing name = candSlug (slugify name) n ∧
      candSlug (slugify name) n ∉ existing ∧
      ∀ m, 1 ≤ m → m < n → candSlug (slugify name) m ∈ existing := by
  obtain ⟨k, hk, hfree⟩ :=
    exists_cand_free existing (fun k => candSlug (slugify name) (1 + k))
      (candFamily_inj (slugify name))
  obtain ⟨j, hj1, hj2, hj3⟩ :=
    slugAttempts_first existing (slugify name) (existing.length + 1) (slugify name) 1 hb
      ⟨k, by omega, hfree⟩
  refine ⟨1 + j, by omega, hj1, hj2, ?_⟩
  intro m hm1 hm2
  have harith : m = 1 + (m - 1) := by omega
  rw [harith]
  exact hj3 (m - 1) (by omega)

theorem gen_slug_eq_cand {existing : List String} {name : String} {k : Nat}
    (hb : slugify name ∈ existing) (hk : 1 ≤ k)
    (hfree : candSlug (slugify name) k ∉ existing)
    (hmin : ∀ m, 1 ≤ m → m < k → candSlug (slugify name) m ∈ existing) :
    generate_unique_slug existing name = candSlug (slugify name) k := by
  obtain ⟨n, hn1, hn2, hn3, hn4⟩ := gen_slug_first hb
  have hnk : n = k := by
    rcases Nat.lt_trichotomy n k with h | h | h
    · exact absurd (hmin n hn1 h) hn3
    · exact h
    · exact absurd (hn4 k hk h) hfree
  rw [hn2, hnk]

theorem createFolder_slug (db : DB) (name : String) :
    (createFolder db name).2.slug = generate_unique_slug (folderScopeSlugs db) name := rfl

theorem folderScopeSlugs_createFolder (db : DB) (name : String) :
    folderScopeSlugs (createFolder db name).1 =
      folderScopeSlugs db ++ [generate_unique_slug (folderScopeSlugs db) name] := by
  simp [createFolder, folderScopeSlugs]

/-- C1: for every candidate name and every stored state, the slug
returned by generate_unique_slug is held by no entity in the given
scope; it equals the base slug when the base is free, and otherwise the
first free suffixed candidate, the counter starting at one. -/
theorem generate_unique_slug_spec (existing : List String) (name : String) :
    generate_unique_slug existing name ∉ existing ∧
    (slugify name ∉ existing → generate_unique_slug existing name = slugify name) ∧
    (slugify name ∈ existing →
      ∃ n, 1 ≤ n ∧ generate_unique_slug existing name = candSlug (slugify name) n ∧
        candSlug (slugify name) n ∉ existing ∧
        ∀ m, 1 ≤ m → m < n → candSlug (slugify name) m ∈ existing) :=
  ⟨gen_slug_not_mem existing name, gen_slug_base, gen_slug_first⟩

/-- Witness for C1: with test-folder and test-folder-1 already in scope,
the name Test Folder is allocated a fresh slug, the first free suffixed
candidate. -/
theorem generate_unique_slug_spec_witness :
    generate_unique_slug ["test-folder", "test-folder-1"] "Test Folder" ∉
      (["test-folder", "test-folder-1"] : List String) ∧
    ∃ n, 1 ≤ n ∧
      generate_unique_slug ["test-folder", "test-folder-1"] "Test Folder" =
        candSlug (slugify "Test Folder") n ∧
      candSlug (slugify "Test Folder") n ∉ (["test-folder", "test-folder-1"] : List String) ∧
      ∀ m, 1 ≤ m → m < n →
        candSlug (slugify "Test Folder") m ∈ (["test-folder", "test-folder-1"] : List String) :=
  ⟨(generate_unique_slug_spec ["test-folder", "test-folder-1"] "Test Folder").1,
   (generate_unique_slug_spec ["test-folder", "test-folder-1"] "Test Folder").2.2 (by decide)⟩

/-- C2: three distinct folder names with the same base slug, created in
order into a store where that base and its first two suffixed candidates
are free, receive the base slug, then the base with suffix one, then the
base with suffix two. -/
theorem folder_slug_collision_sequence (db : DB) (n1 n2 n3 base : String)
    (h1 : slugify n1 = base) (h2 : slugify n2 = base) (h3 : slugify n3 = base)
    (_h12 : n1 ≠ n2) (_h13 : n1 ≠ n3) (_h23 : n2 ≠ n3)
    (hf0 : base ∉ folderScopeSlugs db)
    (hf1 : candSlug base 1 ∉ folderScopeSlugs db)
    (hf2 : candSlug base 2 ∉ folderScopeSlugs db) :
    (createFolder db n1).2.slug = base ∧
    (createFolder (createFolder db n1).1 n2).2.slug = candSlug base 1 ∧
    (createFolder (createFolder (createFolder db n1).1 n2).1 n3).2.slug = candSlug base 2 := by
  have hg1 : generate_unique_slug (folderScopeSlugs db) n1 = base := by
    rw [← h1]
    exact gen_slug_base (by rwa [h1])
  have hs1 : (createFolder db n1).2.slug = base := by rw [createFolder_slug, hg1]
  have hscope1 : folderScopeSlugs (createFolder db n1).1 = folderScopeSlugs db ++ [base] := by
    rw [folderScopeSlugs_createFolder, hg1]
  have hmem1 : base ∈ folderScopeSlugs (createFolder db n1).1 := by
    rw [hscope1]; simp
  have hg2 : generate_unique_slug (folderScopeSlugs (createFolder db n1).1) n2 =
      candSlug base 1 := by
    have := @gen_slug_eq_cand (folderScopeSlugs (createFolder db n1).1)
      n2 1 (by rw [h2]; exact hmem1) le_rfl
      (by rw [h2, hscope1]; simp [hf1, (candSlug_ne_orig base 1)])
      (by intro m hm1 hm2; omega)
    rwa [h2] at this
  have hs2 : (createFolder (createFolder db n1).1 n2).2.slug = candSlug base 1 := by
    rw [createFolder_slug, hg2]
  have hscope2 : folderScopeSlugs (createFolder (createFolder db n1).1 n2).1 =
      folderScopeSlugs db ++ [base] ++ [candSlug base 1] := by
    rw [folderScopeSlugs_createFolder, hg2, hscope1]
  have hmem2 : base ∈ folderScopeSlugs (createFolder (createFolder db n1).1 n2).1 := by
    rw [hscope2]; simp
  have hs3 : (createFolder (createFolder (createFolder db n1).1 n2).1 n3).2.slug =
      candSlug base 2 := by
    rw [createFolder_slug]
    have hfree2 : candSlug base 2 ∉
        folderScopeSlugs (createFolder (createFolder db n1).1 n2).1 := by
      rw [hscope2]
      simp only [List.mem_append, List.mem_singleton]
      push_neg
      refine ⟨⟨hf2, candSlug_ne_orig base 2⟩, ?_⟩
      intro h
      have := candSlug_inj h
      omega
    have hmin : ∀ m, 1 ≤ m → m < 2 → candSlug base m ∈
        folderScopeSlugs (createFolder (createFolder db n1).1 n2).1 := by
      intro m hm1 hm2
      have hm : m = 1 := by omega
      subst hm
      rw [hscope2]; simp
    have := @gen_slug_eq_cand (folderScopeSlugs (createFolder (createFolder db n1).1 n2).1)
      n3 2 (by rw [h3]; exact hmem2) (by omega)
      (by rw [h3]; exact hfree2) (by intro m hm1 hm2; rw [h3]; exact hmin m hm1 hm2)
    rwa [h3] at this
  exact ⟨hs1, hs2, hs3⟩

/-- Witness for C2: the spec's example run from the empty store. -/
theorem folder_slug_collision_sequence_witness :
    (createFolder ⟨[], [], 1, 1⟩ "Test Folder").2.slug = "test-folder" ∧
    (createFolder (createFolder ⟨[], [], 1, 1⟩ "Test Folder").1 "Test-Folder").2.slug =
      candSlug "test-folder" 1 ∧
    (createFolder (createFolder (createFolder ⟨[], [], 1, 1⟩ "Test Folder").1
        "Test-Folder").1 "test folder").2.slug = candSlug "test-folder" 2 :=
  folder_slug_collision_sequence ⟨[], [], 1, 1⟩ "Test Folder" "Test-Folder" "test folder"
    "test-folder" (by decide) (by decide) (by decide) (by decide) (by decide) (by decide)
    (by decide) (by decide) (by decide)

/-- C6 counterexample: a name of exclamation marks normalizes to the
empty base slug, and on an empty scope generate_unique_slug returns the
empty slug, not a non-empty fallback token. -/
theorem empty_base_slug_counterexample :
    slugify "!!!" = "" ∧ generate_unique_slug [] "!!!" = "" := by decide

/-- C6 amended: the allocator has no fallback token for names whose base
slug is empty: it returns the empty slug whenever no entity in scope
holds the empty slug, and otherwise the first free bare hyphen-and-counter
slug, the counter starting at one with every smaller candidate taken. -/
theorem empty_base_slug_behavior (existing : List String) (name : String)
    (h : slugify name = "") :
    (("" : String) ∉ existing → generate_unique_slug existing name = "") ∧
    (("" : String) ∈ existing →
      ∃ n, 1 ≤ n ∧ generate_unique_slug existing name = candSlug "" n ∧
        candSlug "" n ∉ existing ∧
        ∀ m, 1 ≤ m → m < n → candSlug "" m ∈ existing) := by
  constructor
  · intro hf
    have := @gen_slug_base existing name (by rwa [h])
    rwa [h] at this
  · intro hm
    obtain ⟨n, hn1, hn2, hn3, hn4⟩ :=
      @gen_slug_first existing name (by rwa [h])
    refine ⟨n, hn1, by rwa [h] at hn2, by rwa [h] at hn3, ?_⟩
    intro m hm1 hm2
    have := hn4 m hm1 hm2
    rwa [h] at this

/-- Witness for C6: the degenerate behavior at two concrete scopes, the
second exercising the collision branch with its minimality clause. -/
theorem empty_base_slug_behavior_witness :
    generate_unique_slug ["x"] "!!!" = "" ∧
    ∃ n, 1 ≤ n ∧ generate_unique_slug ["", "-1"] "!!!" = candSlug "" n ∧
      candSlug "" n ∉ (["", "-1"] : List String) ∧
      ∀ m, 1 ≤ m → m < n → candSlug "" m ∈ (["", "-1"] : List String) :=
  ⟨(empty_base_slug_behavior ["x"] "!!!" (by decide)).1 (by decide),
   (empty_base_slug_behavior ["", "-1"] "!!!" (by decide)).2 (by decide)⟩

/-- C3 at the failing input: ingesting two images into an empty folder
keeps the stored image count correct after each creation, but deleting
one image leaves the stored count at two while only one Image row
remains, because no recount runs on deletion. -/
theorem image_delete_leaves_stale_count :
    let db0 : DB := ⟨[⟨1, "Test Folder", "test-folder", 0⟩], [], 2, 1⟩
    let db1 := (ingest_result db0 1 ⟨"a.png", 10, some ⟨8, 8, "RGB"⟩⟩).1
    let db2 := (ingest_result db1 1 ⟨"b.png", 11, some ⟨8, 8, "RGB"⟩⟩).1
    let db3 := image_delete db2 1
    (db1.folders.map fun f => f.image_count) = [1] ∧
    (db2.folders.map fun f => f.image_count) = [2] ∧
    countImages db3 1 = 1 ∧
    (db3.folders.map fun f => f.image_count) = [2] := by decide

/-- C4 at the failing input: re-saving an already persisted image leaves
its metadata untouched but does not leave its slug unchanged: the slug
is regenerated on every save and, the row's own slug being in scope, the
probe collides with it and moves to the suffixed candidate. -/
theorem image_resave_changes_slug :
    let db1 : DB := ⟨[⟨1, "Test Folder", "test-folder", 1⟩],
      [⟨1, 1, "test", "test", "uploads/1/test.png", 100, 100, 2048, true⟩], 2, 2⟩
    (image_resave db1 1).images =
      [⟨1, 1, "test", "test-1", "uploads/1/test.png", 100, 100, 2048, true⟩] := by decide

/-- C5 at the failing input: a file whose extension is outside the
allow-list but whose content decodes as an image is ingested and
persisted by Image.save, because the declared FileExtensionValidator is
never invoked on the save path; no validation error is raised. -/
theorem image_save_accepts_disallowed_extension :
    extension_allowed "test.txt" = false ∧
    ingest_result ⟨[⟨1, "Test Folder", "test-folder", 0⟩], [], 2, 1⟩ 1
        ⟨"test.txt", 9, some ⟨100, 100, "RGB"⟩⟩ =
      (⟨[⟨1, "Test Folder", "test-folder", 1⟩],
        [⟨1, 1, "test", "test", "uploads/1/test.txt", 100, 100, 9, true⟩], 2, 2⟩,
       some ⟨1, 1, "test", "test", "uploads/1/test.txt", 100, 100, 9, true⟩) := by decide

/-- C7: whenever the ingestion of a new upload fails, no Image row is
persisted: the store, and with it every folder's stored image count, is
exactly as before the failed ingestion. -/
theorem ingest_failure_preserves_state (db : DB) (folder_id : Nat) (file : UploadedFile)
    (h : (ingest_result db folder_id file).2 = none) :
    (ingest_result db folder_id file).1 = db := by
  cases hdec : file.decoded with
  | none => simp [ingest_result, image_save_new, hdec]
  | some info => simp [ingest_result, image_save_new, hdec] at h

/-- Witness for C7: a file with undecodable content fails and the store
comes back unchanged. -/
theorem ingest_failure_preserves_state_witness :
    (ingest_result ⟨[⟨1, "Test Folder", "test-folder", 0⟩], [], 2, 1⟩ 1
        ⟨"bad.png", 3, none⟩).1 = ⟨[⟨1, "Test Folder", "test-folder", 0⟩], [], 2, 1⟩ :=
  ingest_failure_preserves_state _ _ _ (by decide)

/-- C8: ingesting a decodable file whose content is a hundred by hundred
RGB image succeeds and persists a row with width and height one hundred,
is_color true and file_size the byte length of the uploaded content. -/
theorem ingest_rgb_png_metadata (db : DB) (folder_id : Nat) (file : UploadedFile)
    (h : file.decoded = some ⟨100, 100, "RGB"⟩) :
    ∃ db2 img, image_save_new db folder_id file = Except.ok (db2, img) ∧
      img.width = 100 ∧ img.height = 100 ∧ img.is_color = true ∧
      img.file_size = file.size ∧ img ∈ db2.images := by
  unfold image_save_new
  rw [h]
  refine ⟨_, _, rfl, rfl, rfl, rfl, rfl, ?_⟩
  show _ ∈ (update_image_count _ _).images
  simp [update_image_count]

/-- Witness for C8 at a concrete store and upload. -/
theorem ingest_rgb_png_metadata_witness :
    ∃ db2 img, image_save_new ⟨[⟨1, "Test Folder", "test-folder", 0⟩], [], 2, 1⟩ 1
        ⟨"photo.png", 2048, some ⟨100, 100, "RGB"⟩⟩ = Except.ok (db2, img) ∧
      img.width = 100 ∧ img.height = 100 ∧ img.is_color = true ∧
      img.file_size = (⟨"photo.png", 2048, some ⟨100, 100, "RGB"⟩⟩ : UploadedFile).size ∧
      img ∈ db2.images :=
  ingest_rgb_png_metadata _ _ _ rfl

/-- C9: Folder.update_image_count is idempotent: recounting twice with no
intervening mutation of the image table stores the same count and leaves
the store exactly as after one recount. -/
theorem update_image_count_idempotent (db : DB) (folder_id : Nat) :
    update_image_count (update_image_count db folder_id) folder_id =
      update_image_count db folder_id := by
  unfold update_image_count
  congr 1
  rw [List.map_map]
  apply List.map_congr_left
  intro f _
  by_cases hf : f.id = folder_id <;> simp [hf, Function.comp, countImages]

/-- C10: an identifier consisting only of digit characters is resolved
as a numeric id lookup, so for a stored folder whose slug is purely
numeric the public lookup by that slug string returns the folder whose
id equals that number (or none when there is none) and never matches the
folder row by its slug; with no folder carrying that id, the folder is
unreachable by slug. -/
theorem digit_slug_lookup_resolves_by_id (folders : List FolderRec) (f : FolderRec)
    (_hf : f ∈ folders) (hne : f.slug ≠ "") (hdig : f.slug.data.all Char.isDigit = true) :
    get_object_by_identifier folders f.slug =
      folders.find? (fun g => g.id == strToNat f.slug) ∧
    ((∀ g ∈ folders, g.id ≠ strToNat f.slug) →
      get_object_by_identifier folders f.slug = none) := by
  have hnil : f.slug.data ≠ [] := by
    intro h0
    apply hne
    have heta : f.slug = String.mk f.slug.data := rfl
    rw [heta, h0]
  have hisd : isdigit f.slug = true := by
    simp [isdigit, hdig, List.isEmpty_iff, hnil]
  constructor
  · simp [get_object_by_identifier, hisd]
  · intro hnone
    simp only [get_object_by_identifier, hisd, if_true]
    rw [List.find?_eq_none]
    intro g hg
    simpa using hnone g hg

/-- Witness for C10: a folder with id five and the purely numeric slug
one-two-three is unreachable through the lookup, which resolves the
identifier as an id. -/
theorem digit_slug_lookup_resolves_by_id_witness :
    get_object_by_identifier [⟨5, "123", "123", 0⟩]
        (FolderRec.slug ⟨5, "123", "123", 0⟩) =
      List.find? (fun g => g.id == strToNat (FolderRec.slug ⟨5, "123", "123", 0⟩))
        [⟨5, "123", "123", 0⟩] ∧
    get_object_by_identifier [⟨5, "123", "123", 0⟩]
        (FolderRec.slug ⟨5, "123", "123", 0⟩) = none := by
  have h := digit_slug_lookup_resolves_by_id [⟨5, "123", "123", 0⟩] ⟨5, "123", "123", 0⟩
    (by decide) (by decide) (by decide)
  exact ⟨h.1, h.2 (by decide)⟩

end ImageHub
